import Mathlib

/-!
Verification development for the playq-core variable store and locator
resolver (a shallow embedding of `src/helper/bundle/vars.ts` and
`src/helper/loc/locatorResolver.ts`, plus the wait loop of
`src/helper/actions/web/waitActions.ts`).

JavaScript string builtins (`trim`, `toLowerCase`, `startsWith`, `split`,
`replace`, `includes`, `Number(...)` coercion) are modelled by structurally
recursive functions over `List Char` so that every definition evaluates by
kernel reduction.  The process-wide mutable state (`storedVars`,
`loggedMissingKeys`, `process.env`) is passed explicitly: the store is an
association list where the most recent assignment is at the head (JS object
assignment overwrites, which first-match lookup over a cons models exactly),
and the logged-key set is a plain list.
-/

set_option autoImplicit false

namespace PlayQ

/-- JS whitespace characters relevant to `trim` / `Number` (ASCII fragment of
the Unicode whitespace class used by JavaScript). -/
def isJsWs (c : Char) : Bool :=
  c == ' ' || c == '\t' || c == '\n' || c == '\r'

/-- Model of `String.prototype.trim`: drop leading and trailing whitespace. -/
def jsTrim (s : String) : String :=
  String.mk (((s.data.dropWhile isJsWs).reverse.dropWhile isJsWs).reverse)

/-- ASCII lowering of one character (model of the fragment of
`String.prototype.toLowerCase` exercised by the code). -/
def lowerCh (c : Char) : Char :=
  if 'A' ≤ c && c ≤ 'Z' then Char.ofNat (c.toNat + 32) else c

/-- Model of `String.prototype.toLowerCase` (ASCII fragment). -/
def jsToLowerCase (s : String) : String :=
  String.mk (s.data.map lowerCh)

/-- Character-list version of `String.prototype.startsWith`. -/
def chStarts : List Char → List Char → Bool
  | [], _ => true
  | _ :: _, [] => false
  | p :: ps, c :: cs => p == c && chStarts ps cs

/-- Model of `String.prototype.startsWith`. -/
def jsStartsWith (s pat : String) : Bool :=
  chStarts pat.data s.data

/-- Model of `String.prototype.endsWith` (via reversed-list head check). -/
def jsEndsWith (s pat : String) : Bool :=
  chStarts pat.data.reverse s.data.reverse

/-- Character-list scan underlying `String.prototype.includes`: is `pat` a
contiguous run of `l`? -/
def chIncl (l pat : List Char) : Bool :=
  match l with
  | [] => chStarts pat []
  | _ :: cs => chStarts pat l || chIncl cs pat

/-- Model of `String.prototype.includes`. -/
def jsIncludes (s pat : String) : Bool :=
  chIncl s.data pat.data

/-- Drop the first `n` characters (model of `String.prototype.slice(n)` for a
nonnegative argument). -/
def jsDrop (s : String) (n : Nat) : String :=
  String.mk (s.data.drop n)

/-- Split on a single separator character, keeping empty segments, as
`String.prototype.split` with a one-character separator does. -/
def chSplit (sep : Char) : List Char → List (List Char)
  | [] => [[]]
  | c :: cs =>
    let rest := chSplit sep cs
    if c == sep then [] :: rest
    else
      match rest with
      | [] => [[c]]
      | r :: rs => (c :: r) :: rs

/-- Model of `selector.split(".")`. -/
def jsSplitDot (s : String) : List String :=
  (chSplit '.' s.data).map String.mk

/-- Replace every (non-overlapping, left-to-right) occurrence of `pat`
(nonempty) by `rep`; model of a global regex replace with a literal pattern,
e.g. `key.replace(/\./g, '__')`.  `fuel` bounds the scan; callers pass the
input length, which suffices because each step consumes one character. -/
def chReplAll (pat rep : List Char) : Nat → List Char → List Char
  | _, [] => []
  | 0, l => l
  | fuel + 1, c :: cs =>
    if chStarts pat (c :: cs) && !pat.isEmpty then
      rep ++ chReplAll pat rep fuel ((c :: cs).drop pat.length)
    else
      c :: chReplAll pat rep fuel cs

/-- Model of a global literal-pattern `String.prototype.replace`. -/
def jsReplaceAll (s pat rep : String) : String :=
  String.mk (chReplAll pat.data rep.data s.data.length s.data)

/-- Replace the first occurrence of `pat` (nonempty) by `rep`; model of
`String.prototype.replace` with a plain string pattern, which substitutes
only the first occurrence. -/
def chReplFirst (pat rep : List Char) : Nat → List Char → List Char
  | _, [] => []
  | 0, l => l
  | fuel + 1, c :: cs =>
    if chStarts pat (c :: cs) && !pat.isEmpty then
      rep ++ (c :: cs).drop pat.length
    else
      c :: chReplFirst pat rep fuel cs

/-- Model of first-occurrence `String.prototype.replace`. -/
def jsReplaceFirst (s pat rep : String) : String :=
  String.mk (chReplFirst pat.data rep.data s.data.length s.data)

/-- Decimal digit test. -/
def isDigitCh (c : Char) : Bool :=
  '0' ≤ c && c ≤ '9'

/-- Fold a digit run into a natural number. -/
def digitsToNat (l : List Char) : Nat :=
  l.foldl (fun n c => n * 10 + (c.toNat - '0'.toNat)) 0

/-- Integer fragment of JS `Number(string)`: optional sign followed by
digits.  Returns `none` where real JS would produce `NaN` on this fragment
(non-numeric text); fractional/exponent/hex forms are outside the inputs
this development evaluates and are mapped to `none` as well. -/
def parseIntChars : List Char → Option Int
  | [] => none
  | '-' :: rest =>
    if !rest.isEmpty && rest.all isDigitCh then some (-(digitsToNat rest : Int)) else none
  | '+' :: rest =>
    if !rest.isEmpty && rest.all isDigitCh then some (digitsToNat rest : Int) else none
  | l =>
    if l.all isDigitCh then some (digitsToNat l : Int) else none

/-- Model of `String(Number(s))` as used when the `.(toNumber)` placeholder
result is spliced back into the output string: whitespace-trimmed empty input
coerces to `0`, signed digit runs coerce to the canonical integer rendering,
everything else renders as `"NaN"`. -/
def jsNumberRender (s : String) : String :=
  let t := jsTrim s
  if t == "" then "0"
  else
    match parseIntChars t.data with
    | some n => toString n
    | none => "NaN"

/-! ## The variable store (`src/helper/bundle/vars.ts`)

`storedVars` is a JS object used as a string-to-string map; modelled as an
association list with the newest binding first.  `loggedMissingKeys` is a
`Set<string>`; modelled as a `List String` with `contains`.  `process.env`
is modelled as `String → Option String` (`none` = variable not present). -/

/-- The flat variable store, newest binding first. -/
abbrev Store := List (String × String)

/-- Lookup in the store (`key in storedVars` / `storedVars[key]`): first
match wins, which models JS object overwrite-on-assign. -/
def lookupStore (store : Store) (key : String) : Option String :=
  List.lookup key store

/-- Observable warnings emitted through `console.warn` by the store code. -/
inductive LogEvent where
  | warnEmptyKey
  | warnMissingVar (key : String)
  | warnDecryptPwd (msg : String)
  | warnDecryptEnc (msg : String)
deriving DecidableEq

/-- Embedding of `getValue(key, ifEmpty?)` (vars.ts lines 419-444).
Returns the result string, the updated `loggedMissingKeys`, and the warnings
printed during the call. -/
def getValue (env : String → Option String) (store : Store)
    (logged : List String) (key : String) (ifEmpty : Bool) :
    String × List String × List LogEvent :=
  if key == "" then
    -- `if (!key)`: the only falsy string is the empty string
    (if ifEmpty then "" else key, logged, [LogEvent.warnEmptyKey])
  else
    let key := jsTrim key
    if jsStartsWith key "env." then
      match env (jsDrop key 4) with
      | none => (if ifEmpty then "" else key, logged, [])
      | some v =>
        -- `if (!envValue)`: a present-but-empty variable is falsy
        if v == "" then (if ifEmpty then "" else key, logged, [])
        else (v, logged, [])
    else
      match lookupStore store key with
      | some v => (if ifEmpty && v == key then "" else v, logged, [])
      | none =>
        if !ifEmpty && !(logged.contains key) then
          (if ifEmpty then "" else key, key :: logged, [LogEvent.warnMissingVar key])
        else
          (if ifEmpty then "" else key, logged, [])

/-- Embedding of `getConfigValue(key, ifEmpty?)` (vars.ts lines 446-461).
Returns the result string and the updated `loggedMissingKeys`.  Note that in
the source the `if (ifEmpty) return ''` sits inside the
`!loggedMissingKeys.has(fullKey)` block, so it only fires the first time a
given `config.`-key misses; this is transcribed as-is. -/
def getConfigValue (env : String → Option String) (store : Store)
    (logged : List String) (key : String) (ifEmpty : Bool) :
    String × List String :=
  let rawKey := jsTrim key
  let envKey := "PLAYQ__" ++ jsReplaceAll rawKey "." "__"
  let fromStore : String × List String :=
    let fullKey := "config." ++ rawKey
    match lookupStore store fullKey with
    | some v => (v, logged)
    | none =>
      if logged.contains fullKey then (fullKey, logged)
      else if ifEmpty then ("", fullKey :: logged)
      else (fullKey, fullKey :: logged)
  match env envKey with
  | some v => if v == "" then fromStore else (v, logged)
  | none => fromStore

/-- The value computed by `getConfigValue` with `ifEmpty` absent; with
`ifEmpty = false` the returned string does not depend on the logged set, so
the empty set is a faithful representative. -/
def getConfigValueVal (env : String → Option String) (store : Store)
    (key : String) : String :=
  (getConfigValue env store [] key false).1

/-- Embedding of `setValue(key, value)` (vars.ts lines 463-468), restricted
to the in-memory store.  The `var.static.` persistence writes a JSON side
file and never feeds back into `storedVars`, so it does not affect any store
read. -/
def setValue (store : Store) (key value : String) : Store :=
  (key, value) :: store

/-- A sequence of `n` identical `getValue` calls threading the logged set;
used to state the once-per-key warning property.  Returns the final logged
set and the concatenation of all emitted warnings, in order. -/
def getValueIter (env : String → Option String) (store : Store) :
    Nat → List String → String → Bool → List String × List LogEvent
  | 0, logged, _, _ => (logged, [])
  | n + 1, logged, key, ifEmpty =>
    let r := getValue env store logged key ifEmpty
    let rest := getValueIter env store n r.2.1 key ifEmpty
    (rest.1, r.2.2 ++ rest.2)

/-! ## `replaceVariables` (vars.ts lines 519-551)

The regex `/\#\{([^}]+)\}/g` is modelled by a left-to-right scanner: at
`#{` it takes a nonempty run of non-`\x7d` characters followed by `\x7d`
(the placeholder body); where no such run exists the scanner emits the
character and moves on one position, exactly as the regex engine does.
The decryption capability (`cryptoUtil.decrypt`) is an external collaborator
and is passed as `dec : String → Except String String`, where `.error`
models a thrown exception; the source wraps the call in `try/catch`, so an
`.error` result is converted into the literal expression text plus a
warning, and no error propagates. -/

/-- Take a nonempty `[^\x7d]+` run followed by the closing brace; `none`
when the regex would not match at this position. -/
def spanPlaceholder (l : List Char) : Option (List Char × List Char) :=
  let content := l.takeWhile (fun c => !(c == '\x7d'))
  match content, l.dropWhile (fun c => !(c == '\x7d')) with
  | [], _ => none
  | _, '\x7d' :: r => some (content, r)
  | _, _ => none

/-- The replacement callback of `replaceVariables`, given the placeholder
body `varName`.  Returns the substituted text, the updated logged set, and
the warnings emitted. -/
def rvCallback (dec : String → Except String String)
    (env : String → Option String) (store : Store)
    (logged : List String) (varName : String) :
    String × List String × List LogEvent :=
  if jsStartsWith varName "pwd." then
    -- `varName.replace(/^pwd\./, "")` then `crypto.decrypt` inside try/catch
    match dec (jsDrop varName 4) with
    | Except.ok v => (v, logged, [])
    | Except.error m => (varName, logged, [LogEvent.warnDecryptPwd m])
  else if jsStartsWith varName "enc." then
    match dec (jsDrop varName 4) with
    | Except.ok v => (v, logged, [])
    | Except.error m => (varName, logged, [LogEvent.warnDecryptEnc m])
  else if jsEndsWith varName ".(toNumber)" then
    -- `varName.replace(".(toNumber)", "")`: string pattern, first occurrence
    let baseVar := jsReplaceFirst varName ".(toNumber)" ""
    let r := getValue env store logged baseVar false
    -- `value !== undefined && value !== null && value !== "" ? Number(value) : ""`
    (if r.1 == "" then "" else jsNumberRender r.1, r.2.1, r.2.2)
  else
    getValue env store logged varName false

/-- The scanner for `/\#\{([^}]+)\}/g`, threading the logged set and
collecting warnings in order of emission.  `fuel` bounds the scan; each step
consumes at least one input character, so the input length suffices and the
fuel-exhaustion branch is unreachable from `replaceVariables`. -/
def rvScan (dec : String → Except String String)
    (env : String → Option String) (store : Store) :
    Nat → List Char → List String → List Char × List String × List LogEvent
  | _, [], logged => ([], logged, [])
  | 0, l, logged => (l, logged, [])
  | fuel + 1, '#' :: '\x7b' :: rest, logged =>
    (match spanPlaceholder rest with
     | some (content, rest2) =>
       let rep := rvCallback dec env store logged (String.mk content)
       let tail := rvScan dec env store fuel rest2 rep.2.1
       (rep.1.data ++ tail.1, tail.2.1, rep.2.2 ++ tail.2.2)
     | none =>
       let tail := rvScan dec env store fuel ('\x7b' :: rest) logged
       ('#' :: tail.1, tail.2))
  | fuel + 1, c :: rest, logged =>
    let tail := rvScan dec env store fuel rest logged
    (c :: tail.1, tail.2)

/-- Embedding of `replaceVariables(input)` for string input (the
`typeof input !== "string"` coercion is outside the string-typed contract
considered here).  Total by construction: the only fallible call, `decrypt`,
is wrapped in the modelled try/catch. -/
def replaceVariables (dec : String → Except String String)
    (env : String → Option String) (store : Store)
    (logged : List String) (input : String) :
    String × List String × List LogEvent :=
  let r := rvScan dec env store input.data.length input.data logged
  (String.mk r.1, r.2)

/-- Value projection of `replaceVariables`; used where the source consumes
only the substituted string. -/
def replaceVariablesVal (dec : String → Except String String)
    (env : String → Option String) (store : Store) (input : String) : String :=
  (replaceVariables dec env store [] input).1

/-! ## The locator resolver (`src/helper/loc/locatorResolver.ts`)

The Playwright `Page` is an external collaborator: `page.locator(sel)` is
modelled by the outcome constructor `rawLocator sel`, the project-registered
namespace functions `globalThis.loc[file][page][field](page)` by
`nsHandle`, and the two delegated engines by `smartAiHandle` /
`patternIqHandle`.  `undefined as any` (the `-no-check-` escape hatch) is
`noHandle`.  A thrown `Error` is `Except.error` carrying the message. -/

/-- What the resolver hands back (which strategy produced the handle, and
with which arguments). -/
inductive Outcome where
  | rawLocator (sel : String)
  | nsHandle (file pg fld : String)
  | smartAiHandle (ty sel refresh : String)
  | patternIqHandle (ty sel : String) (overridePat : Option String) (timeout : Option Nat)
  | noHandle
deriving DecidableEq

/-- The nested registry `globalThis.loc`: file → page → list of field names
with a registered (truthy, callable) entry. -/
abbrev LocNs := List (String × List (String × List String))

/-- The JSON locator modules importable as
`@resources/locators/json/<file>.json`: file → page → field → selector
string.  `none` at the file level models a failing dynamic `import`. -/
abbrev JsonLocFiles := List (String × List (String × List (String × String)))

/-- The ambient inputs of `webLocResolver` other than its arguments:
`process.env` and the variable store (read through `getConfigValue` /
`replaceVariables`), the `globalThis.loc` namespace, the importable JSON
locator files, the presence of the two engine callables in
`globalThis.engines`, and the decryption capability used by
`replaceVariables`. -/
structure ResolverCtx where
  env : String → Option String
  store : Store
  globalLoc : LocNs
  jsonFiles : JsonLocFiles
  smartAiEngine : Bool
  patternIqEngine : Bool
  dec : String → Except String String

/-- `globalLoc?.[f]?.[p]?.[fld]` truthiness: every level present. -/
def lookupLocNs (g : LocNs) (f p fld : String) : Bool :=
  match List.lookup f g with
  | none => false
  | some pages =>
    match List.lookup p pages with
    | none => false
    | some fields => fields.contains fld

/-- Array destructuring `const [, a, b, c] = parts`: an out-of-range part is
`undefined`, which JS renders as the string `"undefined"` both as a property
key and inside a template literal. -/
def partD : List String → Nat → String
  | [], _ => "undefined"
  | s :: _, 0 => s
  | _ :: t, n + 1 => partD t n

/-- `isPlaywrightPrefixed` (locatorResolver.ts line 21). -/
def isPlaywrightPrefixed (s : String) : Bool :=
  jsStartsWith s "xpath=" || jsStartsWith s "xpath =" ||
  jsStartsWith s "css=" || jsStartsWith s "css ="

/-- The raw-selector normalisation of the `xpath=`/`css=` branch
(locatorResolver.ts lines 25-28): first turn a leading `xpath=\` into
`xpath=`, then strip the engine marker, then unescape `\/` globally. -/
def stripPlaywrightSel (s : String) : String :=
  let s1 :=
    if jsStartsWith s "xpath=\\" then "xpath=" ++ jsDrop s 7
    else if jsStartsWith s "xpath =\\" then "xpath=" ++ jsDrop s 8
    else s
  let s2 :=
    if jsStartsWith s1 "xpath=" then jsDrop s1 6
    else if jsStartsWith s1 "xpath =" then jsDrop s1 7
    else if jsStartsWith s1 "css=" then jsDrop s1 4
    else if jsStartsWith s1 "css =" then jsDrop s1 5
    else s1
  jsReplaceAll s2 "\\/" "/"

/-- `isPlaywrightChainedPrefixed` (locatorResolver.ts line 33). -/
def isPlaywrightChainedPrefixed (s : String) : Bool :=
  jsStartsWith s "chain=" || jsStartsWith s "chain ="

/-- Strip the `chain=` marker (locatorResolver.ts line 35). -/
def stripChainSel (s : String) : String :=
  if jsStartsWith s "chain=" then jsDrop s 6
  else if jsStartsWith s "chain =" then jsDrop s 7
  else s

/-- `isXPath` (locatorResolver.ts lines 40-41). -/
def isXPath (s : String) : Bool :=
  jsStartsWith (jsTrim s) "//" || jsStartsWith (jsTrim s) "("

/-- `isCSS` (locatorResolver.ts lines 42-45). -/
def isCSS (s : String) : Bool :=
  jsIncludes s ">" || jsStartsWith s "." || jsIncludes s "#"

/-- `isChained` (locatorResolver.ts line 46). -/
def isChained (s : String) : Bool :=
  jsIncludes s ">>"

/-- `isResourceLocator` (locatorResolver.ts line 47). -/
def isResourceLocator (s : String) : Bool :=
  jsStartsWith s "loc."

/-- Embedding of `webLocResolver(type, selector, page, overridePattern,
timeout, smartAiRefresh)` (locatorResolver.ts lines 11-142).  The strategy
order is transcribed from the source: engine-marker branches, raw-selector
heuristics, the `loc.` resource branch (whose tail throws
`Unknown locator source type` whenever no namespace entry was found), the
`-no-check-` escape hatch, the two optional engines, then the default
pass-through. -/
def webLocResolver (ctx : ResolverCtx) (ty selector : String)
    (overridePattern : Option String) (timeout : Option Nat)
    (smartAiRefresh : String) : Except String Outcome :=
  if isPlaywrightPrefixed selector then
    Except.ok (Outcome.rawLocator (stripPlaywrightSel selector))
  else if isPlaywrightChainedPrefixed selector then
    Except.ok (Outcome.rawLocator (stripChainSel selector))
  else if (isXPath selector || isCSS selector || isChained selector) &&
      !(isResourceLocator selector) then
    Except.ok (Outcome.rawLocator selector)
  else if isResourceLocator selector then
    let parts := jsSplitDot selector
    if parts.length < 3 then
      Except.error ("❌ Invalid locator format: \"" ++ selector ++
        "\". Expected format: loc.(ts|json).<page>.<field>")
    else if jsStartsWith selector "loc.json." then
      -- `const [, , fileName, pageName, fieldName] = selector.split(".")`
      let fileName := partD parts 2
      let pageName := partD parts 3
      let fieldName := partD parts 4
      match List.lookup fileName ctx.jsonFiles with
      | none =>
        -- a failing dynamic `import` rejects the promise
        Except.error ("Cannot find module @resources/locators/json/" ++
          fileName ++ ".json")
      | some jmap =>
        match List.lookup pageName jmap with
        | none =>
          Except.error ("❌ Page \"" ++ pageName ++ "\" not found in " ++
            fileName ++ ".json")
        | some pageObj =>
          match List.lookup fieldName pageObj with
          | none =>
            Except.error ("❌ Field \"" ++ fieldName ++ "\" not found in " ++
              fileName ++ ".json[" ++ pageName ++ "]")
          | some locatorString =>
            if locatorString == "" then
              -- `if (!locatorString)`: the empty string is falsy
              Except.error ("❌ Field \"" ++ fieldName ++ "\" not found in " ++
                fileName ++ ".json[" ++ pageName ++ "]")
            else
              Except.ok (Outcome.rawLocator
                (replaceVariablesVal ctx.dec ctx.env ctx.store locatorString))
    else if jsStartsWith selector "loc.ts." &&
        lookupLocNs ctx.globalLoc (partD parts 2) (partD parts 3) (partD parts 4) then
      Except.ok (Outcome.nsHandle (partD parts 2) (partD parts 3) (partD parts 4))
    -- the source then re-checks `selector.startsWith("loc.")`, which is
    -- already known to hold inside this branch
    else if lookupLocNs ctx.globalLoc (partD parts 1) (partD parts 2) (partD parts 3) then
      Except.ok (Outcome.nsHandle (partD parts 1) (partD parts 2) (partD parts 3))
    else
      Except.error ("❌ Unknown locator source type \"" ++ partD parts 1 ++
        "\". Use loc. or locator.")
  else if (match overridePattern with
           | some p => !(p == "") && jsToLowerCase p == "-no-check-"
           | none => false) then
    Except.ok Outcome.noHandle
  else if jsTrim (jsToLowerCase (getConfigValueVal ctx.env ctx.store "smartAi.enable"))
      == "true" && ctx.smartAiEngine then
    Except.ok (Outcome.smartAiHandle ty selector smartAiRefresh)
  else if jsTrim (jsToLowerCase (getConfigValueVal ctx.env ctx.store "patternIq.enable"))
      == "true" && ctx.patternIqEngine then
    Except.ok (Outcome.patternIqHandle ty selector overridePattern timeout)
  else
    Except.ok (Outcome.rawLocator selector)

/-! ## `waitForTextAtLocation` (waitActions.ts lines 225-302)

The polling loop reads `target.innerText()` once per iteration, sleeps
300ms, and re-checks `Date.now() - start < actionTimeout`.  Reads are
modelled by a trace `texts : Nat → String` (the text observed at the i-th
poll), and time by the idealised schedule in which the i-th poll happens at
`300 * i` elapsed milliseconds (reads instantaneous, sleeps exact); the loop
therefore runs while `300 * i < actionTimeout`.  The resolved target handle
itself is driver territory; the trace stands for the text at the resolved
location. -/

/-- One match check of the loop body (waitActions.ts lines 271-277),
transcribed as-is: the source lowercases both sides when `ignoreCase` is
FALSE.  `partMatch` models the source's `partialMatch` option. -/
def textMatches (expectedText actual : String) (partMatch ignoreCase : Bool) : Bool :=
  let expected := if !ignoreCase then jsToLowerCase expectedText else expectedText
  let actual2 := if !ignoreCase then jsToLowerCase actual else actual
  if partMatch then jsIncludes actual2 expected else actual2 == expected

/-- The polling loop (waitActions.ts lines 264-282): returns the `found`
flag and the final `lastActual`.  `fuel` bounds the iteration count; since
iteration `i` requires `300 * i < actionTimeout`, at most `actionTimeout`
iterations can run, so the caller's `actionTimeout + 1` makes the
fuel-exhaustion branch unreachable. -/
def pollLoop (texts : Nat → String) (expectedText : String)
    (actionTimeout : Nat) (partMatch ignoreCase : Bool) :
    Nat → Nat → String → Bool × String
  | 0, _, lastActual => (false, lastActual)
  | fuel + 1, i, lastActual =>
    if 300 * i < actionTimeout then
      let actual := jsTrim (texts i)
      if textMatches expectedText actual partMatch ignoreCase then (true, actual)
      else pollLoop texts expectedText actionTimeout partMatch ignoreCase fuel (i + 1) actual
    else (false, lastActual)

/-- The timeout error message (waitActions.ts line 285). -/
def waitTimeoutMsg (expectedText field : String) (actionTimeout : Nat)
    (lastActual : String) : String :=
  "❌ Text \"" ++ expectedText ++ "\" did not appear at location \"" ++ field ++
  "\" within " ++ toString actionTimeout ++ "ms. Last actual: \"" ++ lastActual ++ "\""

/-- Embedding of `doWaitForTextAtLocation` (waitActions.ts lines 258-302):
`Except.error` models the thrown timeout error, `Except.ok ()` a normal
return.  `actionTimeout` is the option the wrapper resolves from
`config.testExecution.actionTimeout`. -/
def doWaitForTextAtLocation (texts : Nat → String) (field expectedText : String)
    (actionTimeout : Nat) (partMatch ignoreCase : Bool) : Except String Unit :=
  let r := pollLoop texts expectedText actionTimeout partMatch ignoreCase
    (actionTimeout + 1) 0 ""
  if !r.1 then Except.error (waitTimeoutMsg expectedText field actionTimeout r.2)
  else Except.ok ()

/-- The text read at the final poll of a full (non-matching) run: polls run
at indices `0, 1, …` while `300 * i < actionTimeout`, so the last index is
`(actionTimeout - 1) / 300`; with a non-positive timeout no poll happens and
`lastActual` stays `""`. -/
def lastObserved (texts : Nat → String) (actionTimeout : Nat) : String :=
  if actionTimeout = 0 then "" else jsTrim (texts ((actionTimeout - 1) / 300))

/-! ## `parseLooseJson` (vars.ts lines 658-692)

Each regex pass is modelled by a left-to-right scanner over `List Char`
with the same match/advance discipline as the JS regex engine (attempt a
match at the current position; on success continue after the matched text,
on failure emit one character and move on).  `JSON.parse` is modelled by a
strict recursive-descent parser producing `JsonVal` (integer-only numbers —
the fragment these option strings use). -/

/-- Regex word characters `[a-zA-Z0-9_]`. -/
def isWordCh (c : Char) : Bool :=
  ('a' ≤ c && c ≤ 'z') || ('A' ≤ c && c ≤ 'Z') || isDigitCh c || c == '_'

/-- Characters allowed in a masked locator value: `[^,\x7d\n\r]`. -/
def isLocValCh (c : Char) : Bool :=
  !(c == ',' || c == '\x7d' || c == '\n' || c == '\r')

/-- Match `xpath=[^,\x7d\n\r]+|css=…|chain=…` at the head of `l`, returning
the matched value text and the remainder. -/
def matchEngineVal (l : List Char) : Option (List Char × List Char) :=
  let tryPre : List Char → Option (List Char × List Char) := fun pre =>
    if chStarts pre l then
      let after := l.drop pre.length
      let run := after.takeWhile isLocValCh
      if run.isEmpty then none
      else some (pre ++ run, after.dropWhile isLocValCh)
    else none
  match tryPre "xpath=".data with
  | some r => some r
  | none =>
    match tryPre "css=".data with
    | some r => some r
    | none => tryPre "chain=".data

/-- Match `\s*:\s*` at the head of `l`, returning the matched text and the
remainder. -/
def matchColonWs (l : List Char) : Option (List Char × List Char) :=
  let w1 := l.takeWhile isJsWs
  match l.dropWhile isJsWs with
  | ':' :: r =>
    let w2 := r.takeWhile isJsWs
    some (w1 ++ ':' :: w2, r.dropWhile isJsWs)
  | _ => none

/-- Match the group `(["']?locator["']?\s*:\s*)` at the head of `l`
(greedy optional quotes with the regex engine's backtracking). -/
def matchLocKey (l : List Char) : Option (List Char × List Char) :=
  let core : List Char → List Char → Option (List Char × List Char) :=
    fun l2 lead =>
      if chStarts "locator".data l2 then
        let afterWord := l2.drop 7
        let withQuote : Option (List Char × List Char) :=
          match afterWord with
          | q :: r2 =>
            if q == '"' || q == '\'' then
              match matchColonWs r2 with
              | some (cw, rest) => some (lead ++ "locator".data ++ q :: cw, rest)
              | none => none
            else none
          | [] => none
        match withQuote with
        | some r => some r
        | none =>
          match matchColonWs afterWord with
          | some (cw, rest) => some (lead ++ "locator".data ++ cw, rest)
          | none => none
      else none
  match l with
  | q :: r =>
    if q == '"' || q == '\'' then
      match core r [q] with
      | some res => some res
      | none => core l []
    else core l []
  | [] => none

/-- The placeholder text `__LOCATOR_PLACEHOLDER_<n>__`. -/
def placeholderName (n : Nat) : String :=
  "__LOCATOR_PLACEHOLDER_" ++ toString n ++ "__"

/-- The locator-masking pass (vars.ts lines 665-671): replace each matched
locator key/value pair by the key and a numbered placeholder, collecting the
quoted, trimmed values in match order. -/
def maskLocators : Nat → List Char → Nat → List Char × List String
  | _, [], _ => ([], [])
  | 0, l, _ => (l, [])
  | fuel + 1, c :: cs, n =>
    match matchLocKey (c :: cs) with
    | some (p1, afterKey) =>
      (match matchEngineVal afterKey with
       | some (p2, rest) =>
         let r := maskLocators fuel rest (n + 1)
         (p1 ++ (placeholderName n).data ++ r.1,
          ("\"" ++ jsTrim (String.mk p2) ++ "\"") :: r.2)
       | none =>
         let r := maskLocators fuel cs n
         (c :: r.1, r.2))
    | none =>
      let r := maskLocators fuel cs n
      (c :: r.1, r.2)

/-- The single-quote pass (vars.ts lines 673-675): rewrite `: '…'` to
`: "…"`.  In `(?:[^']|\\')*` the first alternative also consumes
backslashes, so with the engine's greedy scan the content is exactly the
run of non-quote characters. -/
def cvtSingleQuotes : Nat → List Char → List Char
  | _, [] => []
  | 0, l => l
  | fuel + 1, ':' :: cs =>
    (match cs.dropWhile isJsWs with
     | '\'' :: r =>
       let content := r.takeWhile (fun c => !(c == '\''))
       (match r.dropWhile (fun c => !(c == '\'')) with
        | '\'' :: rest => ':' :: ' ' :: '"' :: (content ++ '"' :: cvtSingleQuotes fuel rest)
        | _ => ':' :: cvtSingleQuotes fuel cs)
     | _ => ':' :: cvtSingleQuotes fuel cs)
  | fuel + 1, c :: cs => c :: cvtSingleQuotes fuel cs

/-- The bare-key pass (vars.ts line 678): `([\x7b,]\s*)([a-zA-Z0-9_]+)\s*:`
becomes `$1"$2":`. -/
def quoteBareKeys : Nat → List Char → List Char
  | _, [] => []
  | 0, l => l
  | fuel + 1, c :: cs =>
    if c == '\x7b' || c == ',' then
      let w := cs.takeWhile isJsWs
      let r1 := cs.dropWhile isJsWs
      let word := r1.takeWhile isWordCh
      let r2 := r1.dropWhile isWordCh
      if word.isEmpty then c :: quoteBareKeys fuel cs
      else
        match r2.dropWhile isJsWs with
        | ':' :: r3 => c :: (w ++ '"' :: (word ++ '"' :: ':' :: quoteBareKeys fuel r3))
        | _ => c :: quoteBareKeys fuel cs
    else c :: quoteBareKeys fuel cs

/-- One Python-literal pass (vars.ts lines 679-681): `:\s*<word>\b` becomes
`: <rep>`. -/
def cvtPyLit (word rep : List Char) : Nat → List Char → List Char
  | _, [] => []
  | 0, l => l
  | fuel + 1, ':' :: cs =>
    let r1 := cs.dropWhile isJsWs
    if chStarts word r1 then
      let r2 := r1.drop word.length
      if (match r2 with | [] => true | c2 :: _ => !isWordCh c2) then
        ':' :: ' ' :: (rep ++ cvtPyLit word rep fuel r2)
      else ':' :: cvtPyLit word rep fuel cs
    else ':' :: cvtPyLit word rep fuel cs
  | fuel + 1, c :: cs => c :: cvtPyLit word rep fuel cs

/-- The trailing-comma pass (vars.ts line 682): `,(\s*[\x7d\]])` becomes
`$1`. -/
def stripTrailingCommas : Nat → List Char → List Char
  | _, [] => []
  | 0, l => l
  | fuel + 1, ',' :: cs =>
    let w := cs.takeWhile isJsWs
    (match cs.dropWhile isJsWs with
     | c2 :: rest =>
       if c2 == '\x7d' || c2 == ']' then w ++ c2 :: stripTrailingCommas fuel rest
       else ',' :: stripTrailingCommas fuel cs
     | [] => ',' :: stripTrailingCommas fuel cs)
  | fuel + 1, c :: cs => c :: stripTrailingCommas fuel cs

/-- The restore pass (vars.ts lines 684-686): each stored value is put back
over its placeholder; the JS string-pattern `replace` substitutes only the
first occurrence. -/
def restoreLocators (normalized : String) (vals : List String) : String :=
  vals.enum.foldl (fun s p => jsReplaceFirst s (placeholderName p.1) p.2) normalized

/-- Strict JSON values (integer-only numbers: the fragment exercised by the
loose option strings). -/
inductive JsonVal where
  | jnull
  | jbool (b : Bool)
  | jnum (n : Int)
  | jstr (s : String)
  | jarr (xs : List JsonVal)
  | jobj (kvs : List (String × JsonVal))

/-- JSON string-body parser (after the opening quote), with the common
escapes. -/
def parseJsonStrAux : List Char → List Char → Option (String × List Char)
  | [], _ => none
  | '"' :: r, acc => some (String.mk acc.reverse, r)
  | '\\' :: c :: r, acc =>
    if c == '"' then parseJsonStrAux r ('"' :: acc)
    else if c == '\\' then parseJsonStrAux r ('\\' :: acc)
    else if c == '/' then parseJsonStrAux r ('/' :: acc)
    else if c == 'n' then parseJsonStrAux r ('\n' :: acc)
    else if c == 't' then parseJsonStrAux r ('\t' :: acc)
    else if c == 'r' then parseJsonStrAux r ('\r' :: acc)
    else none
  | c :: r, acc => parseJsonStrAux r (c :: acc)

mutual

/-- Model of `JSON.parse`: parse one JSON value, returning it plus the
remaining input.  `fuel` bounds nesting/sequence length; the input length
suffices. -/
def parseJsonValue : Nat → List Char → Option (JsonVal × List Char)
  | 0, _ => none
  | fuel + 1, l =>
    match l.dropWhile isJsWs with
    | 't' :: 'r' :: 'u' :: 'e' :: r => some (JsonVal.jbool true, r)
    | 'f' :: 'a' :: 'l' :: 's' :: 'e' :: r => some (JsonVal.jbool false, r)
    | 'n' :: 'u' :: 'l' :: 'l' :: r => some (JsonVal.jnull, r)
    | '"' :: r =>
      (match parseJsonStrAux r [] with
       | some (s, r2) => some (JsonVal.jstr s, r2)
       | none => none)
    | '\x7b' :: r => parseJsonObj fuel r
    | '[' :: r => parseJsonArr fuel r
    | '-' :: r =>
      let ds := r.takeWhile isDigitCh
      if ds.isEmpty then none
      else some (JsonVal.jnum (-(digitsToNat ds : Int)), r.dropWhile isDigitCh)
    | c :: r =>
      if isDigitCh c then
        some (JsonVal.jnum (digitsToNat ((c :: r).takeWhile isDigitCh) : Int),
          (c :: r).dropWhile isDigitCh)
      else none
    | [] => none

/-- Object body after the opening brace. -/
def parseJsonObj : Nat → List Char → Option (JsonVal × List Char)
  | 0, _ => none
  | fuel + 1, l =>
    match l.dropWhile isJsWs with
    | '\x7d' :: r => some (JsonVal.jobj [], r)
    | _ => parseJsonMembers fuel (l.dropWhile isJsWs) []

/-- Members of an object body. -/
def parseJsonMembers : Nat → List Char → List (String × JsonVal) →
    Option (JsonVal × List Char)
  | 0, _, _ => none
  | fuel + 1, l, acc =>
    match l.dropWhile isJsWs with
    | '"' :: r =>
      (match parseJsonStrAux r [] with
       | none => none
       | some (k, r2) =>
         match r2.dropWhile isJsWs with
         | ':' :: r3 =>
           (match parseJsonValue fuel r3 with
            | none => none
            | some (v, r4) =>
              match r4.dropWhile isJsWs with
              | ',' :: r5 => parseJsonMembers fuel r5 (acc ++ [(k, v)])
              | '\x7d' :: r5 => some (JsonVal.jobj (acc ++ [(k, v)]), r5)
              | _ => none)
         | _ => none)
    | _ => none

/-- Array body after the opening bracket. -/
def parseJsonArr : Nat → List Char → Option (JsonVal × List Char)
  | 0, _ => none
  | fuel + 1, l =>
    match l.dropWhile isJsWs with
    | ']' :: r => some (JsonVal.jarr [], r)
    | _ => parseJsonItems fuel (l.dropWhile isJsWs) []

/-- Items of an array body. -/
def parseJsonItems : Nat → List Char → List JsonVal → Option (JsonVal × List Char)
  | 0, _, _ => none
  | fuel + 1, l, acc =>
    match parseJsonValue fuel l with
    | none => none
    | some (v, r) =>
      match r.dropWhile isJsWs with
      | ',' :: r2 => parseJsonItems fuel r2 (acc ++ [v])
      | ']' :: r2 => some (JsonVal.jarr (acc ++ [v]), r2)
      | _ => none

end

/-- Embedding of `parseLooseJson(str)` (vars.ts lines 658-692):
`Except.error` models the thrown descriptive error (the embedded message
keeps the source's framing; the JS engine's own parse-error detail is
summarised as `Unexpected token`). -/
def parseLooseJson (str : String) : Except String JsonVal :=
  if str == "" || jsTrim str == "" || jsTrim str == "\"\"" then
    Except.ok (JsonVal.jobj [])
  else
    let needsBraces :=
      !(jsStartsWith (jsTrim str) "\x7b") || !(jsEndsWith (jsTrim str) "\x7d")
    let wrapped := if needsBraces then "\x7b" ++ str ++ "\x7d" else str
    let m := maskLocators wrapped.data.length wrapped.data 0
    let a := cvtSingleQuotes m.1.length m.1
    let b := quoteBareKeys a.length a
    let c1 := cvtPyLit "True".data "true".data b.length b
    let c2 := cvtPyLit "False".data "false".data c1.length c1
    let c3 := cvtPyLit "None".data "null".data c2.length c2
    let d1 := stripTrailingCommas c3.length c3
    let normalized := restoreLocators (String.mk d1) m.2
    match parseJsonValue normalized.data.length normalized.data with
    | some (v, rest) =>
      if (rest.dropWhile isJsWs).isEmpty then Except.ok v
      else Except.error ("❌ Failed to parse options string: \"" ++ str ++
        "\". Error: Unexpected token")
    | none => Except.error ("❌ Failed to parse options string: \"" ++ str ++
      "\". Error: Unexpected token")

/-! ## Helper lemmas -/

/-- A list is a left factor of itself followed by anything. -/
theorem chStarts_self_append (p r : List Char) : chStarts p (p ++ r) = true := by
  induction p with
  | nil => rfl
  | cons c t ih => simp [chStarts, ih]

/-- `chIncl` finds an explicitly embedded factor. -/
theorem chIncl_pat_nil (l : List Char) : chIncl l [] = true := by
  cases l <;> simp [chIncl, chStarts]

/-- A factor sitting between two contexts is found by `chIncl`. -/
theorem chIncl_parts (pre mid post : List Char) :
    chIncl (pre ++ mid ++ post) mid = true := by
  induction pre with
  | nil =>
    cases mid with
    | nil => simp [chIncl_pat_nil]
    | cons m ms =>
      have h := chStarts_self_append (m :: ms) post
      simp only [List.nil_append, List.cons_append, chIncl, Bool.or_eq_true]
      exact Or.inl (by simpa using h)
  | cons c t ih =>
    simp only [List.cons_append, chIncl, Bool.or_eq_true]
    exact Or.inr (by simpa [List.append_assoc] using ih)

/-- `jsIncludes` finds a factor sitting between two contexts. -/
theorem jsIncludes_parts (a b c : String) : jsIncludes (a ++ b ++ c) b = true := by
  unfold jsIncludes
  rw [String.data_append, String.data_append]
  exact chIncl_parts a.data b.data c.data

/-- Splitting a string back from its character data. -/
theorem strMk_data (s : String) : String.mk s.data = s := by
  cases s
  rfl

/-- `String.mk` turns data-level append into string append. -/
theorem strMk_append (a b : String) : String.mk (a.data ++ b.data) = a ++ b := by
  cases a
  cases b
  rfl

/-- `takeWhile` over a brace-free block stops exactly at the closing
brace. -/
theorem takeWhile_to_brace (l r : List Char) (hnb : ∀ c ∈ l, c ≠ '\x7d') :
    (l ++ '\x7d' :: r).takeWhile (fun c => !(c == '\x7d')) = l := by
  induction l with
  | nil => simp [List.takeWhile]
  | cons c t ih =>
    have hc : (c == '\x7d') = false :=
      beq_eq_false_iff_ne.mpr (hnb c (List.mem_cons_self c t))
    simp only [List.cons_append, List.takeWhile_cons, hc]
    simp [ih fun x hx => hnb x (List.mem_cons_of_mem c hx)]

/-- `dropWhile` over a brace-free block lands on the closing brace. -/
theorem dropWhile_to_brace (l r : List Char) (hnb : ∀ c ∈ l, c ≠ '\x7d') :
    (l ++ '\x7d' :: r).dropWhile (fun c => !(c == '\x7d')) = '\x7d' :: r := by
  induction l with
  | nil => simp [List.dropWhile]
  | cons c t ih =>
    have hc : (c == '\x7d') = false :=
      beq_eq_false_iff_ne.mpr (hnb c (List.mem_cons_self c t))
    simp only [List.cons_append, List.dropWhile_cons, hc]
    simp [ih fun x hx => hnb x (List.mem_cons_of_mem c hx)]

/-- The placeholder span succeeds on an explicit `body ++ \x7d ++ rest`
layout with a nonempty brace-free body. -/
theorem spanPlaceholder_eq (l r : List Char) (hne : l ≠ [])
    (hnb : ∀ c ∈ l, c ≠ '\x7d') :
    spanPlaceholder (l ++ '\x7d' :: r) = some (l, r) := by
  unfold spanPlaceholder
  rw [takeWhile_to_brace l r hnb, dropWhile_to_brace l r hnb]
  cases l with
  | nil => exact absurd rfl hne
  | cons c t => rfl

/-- One placeholder step of the `replaceVariables` scanner. -/
theorem rvScan_step (dec : String → Except String String)
    (env : String → Option String) (store : Store) (fuel : Nat)
    (vn rest : List Char) (logged : List String) (hne : vn ≠ [])
    (hnb : ∀ c ∈ vn, c ≠ '\x7d') :
    rvScan dec env store (fuel + 1) ('#' :: '\x7b' :: (vn ++ '\x7d' :: rest)) logged =
      ((rvCallback dec env store logged (String.mk vn)).1.data ++
         (rvScan dec env store fuel rest
           (rvCallback dec env store logged (String.mk vn)).2.1).1,
       (rvScan dec env store fuel rest
         (rvCallback dec env store logged (String.mk vn)).2.1).2.1,
       (rvCallback dec env store logged (String.mk vn)).2.2 ++
         (rvScan dec env store fuel rest
           (rvCallback dec env store logged (String.mk vn)).2.1).2.2) := by
  rw [rvScan, spanPlaceholder_eq vn rest hne hnb]

/-- The scanner on exhausted input. -/
theorem rvScan_nil (dec : String → Except String String)
    (env : String → Option String) (store : Store) (fuel : Nat)
    (logged : List String) :
    rvScan dec env store fuel [] logged = ([], logged, []) := by
  cases fuel <;> rfl

/-- Concrete environment with no variables set. -/
def envNone : String → Option String := fun _ => none

/-- Concrete decryption capability that always throws. -/
def decFail : String → Except String String := fun _ => Except.error "bad ciphertext"

/-- Concrete resolver context: nothing registered, engines disabled. -/
def ctxEmpty : ResolverCtx :=
  ⟨envNone, [], [], [], false, false, decFail⟩

/-! ## Claims -/

/-- Claim C7, counterexample: the read-after-write law fails for the empty
key.  `setValue("", "x")` stores the pair, but `getValue("")` takes the
`if (!key)` branch and returns the key itself (the empty string), not the
stored value. -/
theorem c7_counterexample :
    (getValue envNone (setValue [] "" "x") [] "" false).1 = "" ∧
    (getValue envNone (setValue [] "" "x") [] "" false).1 ≠ "x" := by
  constructor <;> decide

/-- Claim C7 (amended): for every key that is nonempty, trim-stable and not
`env.`-prefixed, `setValue(k, v)` followed by `getValue(k)` (with `ifEmpty`
false) returns `v`; the empty key, keys with surrounding whitespace and
`env.`-prefixed keys are diverted before the store lookup. -/
theorem c7_read_after_write (env : String → Option String) (store : Store)
    (logged : List String) (k v : String) (h1 : k ≠ "") (h2 : jsTrim k = k)
    (h3 : jsStartsWith k "env." = false) :
    (getValue env (setValue store k v) logged k false).1 = v := by
  have hb : (k == "") = false := beq_eq_false_iff_ne.mpr h1
  unfold getValue setValue
  rw [hb]
  simp only [Bool.false_eq_true, if_false, h2, h3]
  simp [lookupStore, List.lookup]

/-- Claim C7, witness for the amended theorem. -/
theorem c7_witness :
    (getValue envNone (setValue [] "centre.code" "41") [] "centre.code" false).1 = "41" :=
  c7_read_after_write envNone [] [] "centre.code" "41" (by decide) (by decide) (by decide)

/-- Claim C2, counterexample: an environment override that is set to the
empty string is falsy in the source's `if (process.env[envKey])` check, so
the stored `config.a` value wins instead of the environment value. -/
theorem c2_counterexample :
    (getConfigValue (fun k => if k == "PLAYQ__a" then some "" else none)
      [("config.a", "v")] [] "a" false).1 = "v" ∧
    (getConfigValue (fun k => if k == "PLAYQ__a" then some "" else none)
      [("config.a", "v")] [] "a" false).1 ≠ "" := by
  constructor <;> decide

/-- Claim C2 (amended): a `PLAYQ__`-mapped environment variable that is set
to a NONEMPTY value wins unconditionally over the store, for any store
contents, logged set and `ifEmpty` flag; an override set to the empty string
is ignored (JS truthiness). -/
theorem c2_env_override (env : String → Option String) (store : Store)
    (logged : List String) (k v : String) (ifEmpty : Bool)
    (hset : env ("PLAYQ__" ++ jsReplaceAll (jsTrim k) "." "__") = some v)
    (hne : v ≠ "") :
    (getConfigValue env store logged k ifEmpty).1 = v := by
  have hb : (v == "") = false := beq_eq_false_iff_ne.mpr hne
  simp [getConfigValue, hset, hb]

/-- Claim C2, witness for the amended theorem. -/
theorem c2_witness :
    (getConfigValue (fun k => if k == "PLAYQ__a__b__c" then some "over" else none)
      [("config.a.b.c", "stored")] [] "a.b.c" false).1 = "over" :=
  c2_env_override (fun k => if k == "PLAYQ__a__b__c" then some "over" else none)
    [("config.a.b.c", "stored")] [] "a.b.c" "over" false (by decide) (by decide)

/-- Claim C5: evaluation of the embedded `getConfigValue` at the failing
input.  With no override and no stored `config.a.b`, the FIRST
`getConfigValue("a.b", true)` returns the empty string and records
`config.a.b` in `loggedMissingKeys`; the SECOND identical call finds the key
in the logged set, skips the `if (ifEmpty) return ''` line (it sits inside
the first-miss block), and returns the literal `config.a.b` — contradicting
the spec's unconditional "empty string if `ifEmpty`". -/
theorem c5_second_call_regresses :
    (getConfigValue envNone [] [] "a.b" true).1 = "" ∧
    (getConfigValue envNone [] ((getConfigValue envNone [] [] "a.b" true).2) "a.b" true).1
      = "config.a.b" := by
  constructor <;> decide

/-- Claim C8, counterexample: for the empty key — which is absent from the
store — no `Variable not found` warning is ever logged (the `if (!key)`
branch emits the empty-key warning instead and returns early), so the
"first call logs it" part of the claim fails: across three calls the
missing-variable warning count is 0, not 1. -/
theorem c8_counterexample :
    ((getValueIter envNone [] 3 [] "" false).2.count (LogEvent.warnMissingVar "")) ≠ 1 := by
  decide

/-- A missed lookup on a well-formed unlogged key warns once and records the
key. -/
theorem getValue_miss_unlogged (env : String → Option String) (store : Store)
    (logged : List String) (k : String) (h1 : k ≠ "") (h2 : jsTrim k = k)
    (h3 : jsStartsWith k "env." = false) (h4 : lookupStore store k = none)
    (h5 : logged.contains k = false) :
    getValue env store logged k false = (k, k :: logged, [LogEvent.warnMissingVar k]) := by
  have hb : (k == "") = false := beq_eq_false_iff_ne.mpr h1
  have h5m : k ∉ logged := by simpa using h5
  unfold getValue
  rw [hb]
  simp [h2, h3, h4, h5m]

/-- A missed lookup on a well-formed key already in the logged set returns
silently and leaves the logged set unchanged. -/
theorem getValue_miss_logged (env : String → Option String) (store : Store)
    (logged : List String) (k : String) (h1 : k ≠ "") (h2 : jsTrim k = k)
    (h3 : jsStartsWith k "env." = false) (h4 : lookupStore store k = none)
    (h5 : logged.contains k = true) :
    getValue env store logged k false = (k, logged, []) := by
  have hb : (k == "") = false := beq_eq_false_iff_ne.mpr h1
  have h5m : k ∈ logged := by simpa using h5
  unfold getValue
  rw [hb]
  simp [h2, h3, h4, h5m]

/-- Once the key is in the logged set, any further run of identical calls
emits no warnings at all. -/
theorem getValueIter_logged_silent (env : String → Option String) (store : Store)
    (k : String) (h1 : k ≠ "") (h2 : jsTrim k = k)
    (h3 : jsStartsWith k "env." = false) (h4 : lookupStore store k = none) :
    ∀ (n : Nat) (logged : List String), logged.contains k = true →
      (getValueIter env store n logged k false).2 = [] := by
  intro n
  induction n with
  | zero => intro logged _; rfl
  | succ m ih =>
    intro logged h5
    unfold getValueIter
    rw [getValue_miss_logged env store logged k h1 h2 h3 h4 h5]
    simp [ih logged h5]

/-- Claim C8 (amended): for every nonempty, trim-stable, non-`env.`-prefixed
key absent from the store and not yet logged, any positive number of
`getValue(k)` calls (with `ifEmpty` false) in one process lifetime emits the
missing-variable warning exactly once — the first call emits it, every later
call is silent.  Empty keys and `env.`-prefixed keys never produce this
warning at all (the counterexample). -/
theorem c8_warn_once (env : String → Option String) (store : Store)
    (logged : List String) (k : String) (n : Nat) (h1 : k ≠ "")
    (h2 : jsTrim k = k) (h3 : jsStartsWith k "env." = false)
    (h4 : lookupStore store k = none) (h5 : logged.contains k = false)
    (h6 : 1 ≤ n) :
    (getValueIter env store n logged k false).2 = [LogEvent.warnMissingVar k] := by
  cases n with
  | zero => omega
  | succ m =>
    unfold getValueIter
    rw [getValue_miss_unlogged env store logged k h1 h2 h3 h4 h5]
    have hmem : (k :: logged).contains k = true := by simp [List.contains]
    simp [getValueIter_logged_silent env store k h1 h2 h3 h4 m (k :: logged) hmem]

/-- Claim C8, witness for the amended theorem: one hundred calls, one
warning. -/
theorem c8_witness :
    (getValueIter envNone [] 100 [] "centre.missing" false).2
      = [LogEvent.warnMissingVar "centre.missing"] :=
  c8_warn_once envNone [] [] "centre.missing" 100 (by decide) (by decide)
    (by decide) (by decide) (by decide) (by decide)

/-- Claim C1, counterexample: a bare `loc.<file>.<page>.<field>` selector
whose entry is missing from the global namespace does NOT fall through to
the delegated-engine/default strategies — the tail of the resource branch
throws `Unknown locator source type`. -/
theorem c1_counterexample :
    webLocResolver ctxEmpty "button" "loc.dash.home.loginBtn" none none "" =
      Except.error "❌ Unknown locator source type \"dash\". Use loc. or locator." := rfl

/-- Claim C1 (amended): BOTH forms throw on a namespace miss.  For a bare
`loc.<f>.<p>.<fld>` selector whose entry is missing at any level, the
resolver throws `Unknown locator source type "<f>"`; for an explicit
`loc.ts.<f>.<p>.<fld>` selector whose entry is missing (and whose parts do
not accidentally resolve through the bare re-check under file key `"ts"`),
it throws `Unknown locator source type "ts"`.  Neither form reaches the
delegated-engine or default strategies. -/
theorem c1_resource_miss_throws :
    (∀ (ctx : ResolverCtx) (ty selector f p fld : String)
       (op : Option String) (timeout : Option Nat) (refresh : String),
       isPlaywrightPrefixed selector = false →
       isPlaywrightChainedPrefixed selector = false →
       isResourceLocator selector = true →
       jsSplitDot selector = ["loc", f, p, fld] →
       jsStartsWith selector "loc.json." = false →
       jsStartsWith selector "loc.ts." = false →
       lookupLocNs ctx.globalLoc f p fld = false →
       webLocResolver ctx ty selector op timeout refresh =
         Except.error ("❌ Unknown locator source type \"" ++ f ++
           "\". Use loc. or locator.")) ∧
    (∀ (ctx : ResolverCtx) (ty selector f p fld : String)
       (op : Option String) (timeout : Option Nat) (refresh : String),
       isPlaywrightPrefixed selector = false →
       isPlaywrightChainedPrefixed selector = false →
       isResourceLocator selector = true →
       jsSplitDot selector = ["loc", "ts", f, p, fld] →
       jsStartsWith selector "loc.json." = false →
       jsStartsWith selector "loc.ts." = true →
       lookupLocNs ctx.globalLoc f p fld = false →
       lookupLocNs ctx.globalLoc "ts" f p = false →
       webLocResolver ctx ty selector op timeout refresh =
         Except.error "❌ Unknown locator source type \"ts\". Use loc. or locator.") := by
  constructor
  · intro ctx ty selector f p fld op timeout refresh hpre hch hres hsplit hjson hts hlook
    simp [webLocResolver, hpre, hch, hres, hsplit, hjson, hts, hlook, partD]
  · intro ctx ty selector f p fld op timeout refresh hpre hch hres hsplit hjson hts hl1 hl2
    simp [webLocResolver, hpre, hch, hres, hsplit, hjson, hts, hl1, hl2, partD]

/-- Claim C1, witness for the amended theorem on concrete selectors with an
empty namespace. -/
theorem c1_witness :
    webLocResolver ctxEmpty "button" "loc.dash.home.userName" none none "" =
      Except.error "❌ Unknown locator source type \"dash\". Use loc. or locator." ∧
    webLocResolver ctxEmpty "button" "loc.ts.dash.home.userName" none none "" =
      Except.error "❌ Unknown locator source type \"ts\". Use loc. or locator." :=
  ⟨c1_resource_miss_throws.1 ctxEmpty "button" "loc.dash.home.userName"
      "dash" "home" "userName" none none "" (by decide) (by decide) (by decide)
      (by decide) (by decide) (by decide) (by decide),
   c1_resource_miss_throws.2 ctxEmpty "button" "loc.ts.dash.home.userName"
      "dash" "home" "userName" none none "" (by decide) (by decide) (by decide)
      (by decide) (by decide) (by decide) (by decide) (by decide)⟩

/-- Claim C3, counterexample: with override pattern `-no-check-` and
selector `xpath=//div`, the engine-prefix strategy still resolves (the
escape-hatch check sits AFTER the prefix, raw-heuristic and resource
branches), so the result is a raw locator produced by another strategy, not
the undefined handle. -/
theorem c3_counterexample :
    webLocResolver ctxEmpty "button" "xpath=//div" (some "-no-check-") none "" =
      Except.ok (Outcome.rawLocator "//div") ∧
    Outcome.rawLocator "//div" ≠ Outcome.noHandle := by
  exact ⟨rfl, by decide⟩

/-- Claim C3 (amended): the `-no-check-` escape hatch short-circuits only
the strategies BELOW it.  For any selector that matches none of the
engine-prefix, raw-heuristic or resource-namespace shapes, an override
pattern that lowercases to `-no-check-` yields the undefined/empty handle,
and neither delegated engine nor the default pass-through runs; selectors
matching an earlier branch are resolved by that branch instead
(the counterexample). -/
theorem c3_no_check_short_circuit (ctx : ResolverCtx)
    (ty selector p : String) (timeout : Option Nat) (refresh : String)
    (hpre : isPlaywrightPrefixed selector = false)
    (hch : isPlaywrightChainedPrefixed selector = false)
    (hraw : (isXPath selector || isCSS selector || isChained selector) = false)
    (hres : isResourceLocator selector = false)
    (hlow : jsToLowerCase p = "-no-check-") :
    webLocResolver ctx ty selector (some p) timeout refresh =
      Except.ok Outcome.noHandle := by
  have hpne : p ≠ "" := by
    intro he
    rw [he] at hlow
    exact absurd hlow (by decide)
  have hb : (p == "") = false := beq_eq_false_iff_ne.mpr hpne
  simp [webLocResolver, hpre, hch, hraw, hres, hb, hlow]

/-- Claim C3, witness for the amended theorem. -/
theorem c3_witness :
    webLocResolver ctxEmpty "button" "Login button" (some "-no-check-") none "" =
      Except.ok Outcome.noHandle :=
  c3_no_check_short_circuit ctxEmpty "button" "Login button" "-no-check-" none ""
    (by decide) (by decide) (by decide) (by decide) (by decide)

/-- A string appended on the right keeps its own data as a suffix layout. -/
theorem jsEndsWith_append (s t : String) : jsEndsWith (s ++ t) t = true := by
  unfold jsEndsWith
  rw [String.data_append, List.reverse_append]
  exact chStarts_self_append t.data.reverse s.data.reverse

/-- A string whose data starts with an explicit character is nonempty. -/
theorem strNe_empty_of_cons (s : String) (a : Char) (l : List Char)
    (h : s.data = a :: l) : s ≠ "" := by
  intro he
  rw [he] at h
  exact absurd h (by simp)

/-- Evaluating the whole `replaceVariables` on a string holding exactly one
placeholder reduces to its callback. -/
theorem replaceVariables_single (dec : String → Except String String)
    (env : String → Option String) (store : Store) (logged : List String)
    (vn : String) (hne : vn.data ≠ []) (hnb : ∀ ch ∈ vn.data, ch ≠ '\x7d') :
    replaceVariables dec env store logged ("#\x7b" ++ vn ++ "\x7d") =
      rvCallback dec env store logged vn := by
  have hdata : ("#\x7b" ++ vn ++ "\x7d").data
      = '#' :: '\x7b' :: (vn.data ++ '\x7d' :: []) := rfl
  unfold replaceVariables
  rw [hdata]
  have hlen : ('#' :: '\x7b' :: (vn.data ++ '\x7d' :: [])).length
      = (vn.data.length + 2) + 1 := by
    simp
  rw [hlen, rvScan_step dec env store (vn.data.length + 2) vn.data [] logged hne hnb]
  rw [strMk_data vn, rvScan_nil]
  simp [strMk_data]

/-- The value returned by a well-formed `getValue(k)` read (`ifEmpty`
false) is the stored value on a hit and the key itself on a miss. -/
theorem getValue_val_eq (env : String → Option String) (store : Store)
    (logged : List String) (k : String) (h1 : k ≠ "") (h2 : jsTrim k = k)
    (h3 : jsStartsWith k "env." = false) :
    (getValue env store logged k false).1 =
      match lookupStore store k with
      | some v => v
      | none => k := by
  have hb : (k == "") = false := beq_eq_false_iff_ne.mpr h1
  unfold getValue
  rw [hb]
  simp only [Bool.false_eq_true, if_false, h2, h3]
  cases hls : lookupStore store k with
  | some v => simp
  | none => cases hc : logged.contains k <;> simp [hc]

/-- Claim C4, counterexample: with `foo` absent from the store,
`#\x7bfoo.(toNumber)\x7d` is replaced by `"NaN"`, not by the empty string —
`getValue` returns the key itself on a miss, which is nonempty and
non-numeric, so `Number("foo")` is `NaN`. -/
theorem c4_counterexample :
    (replaceVariables decFail envNone [] [] "#\x7bfoo.(toNumber)\x7d").1 = "NaN" ∧
    (replaceVariables decFail envNone [] [] "#\x7bfoo.(toNumber)\x7d").1 ≠ "" := by
  constructor <;> decide

/-- Claim C4 (amended): a `#\x7b<key>.(toNumber)\x7d` placeholder becomes
the empty string only when the key is present with a blank stored value;
when the key is present with a nonblank value the numeric coercion of that
value is spliced in, and when the key is ABSENT the numeric coercion of the
key text itself is spliced in (rendering as `NaN` for non-numeric keys),
because the miss returns the key rather than an empty value. -/
theorem c4_toNumber_semantics (dec : String → Except String String)
    (env : String → Option String) (store : Store) (logged : List String)
    (k : String) (h1 : k ≠ "") (h2 : jsTrim k = k)
    (h3 : jsStartsWith k "env." = false) (h4 : ∀ ch ∈ k.data, ch ≠ '\x7d')
    (h5 : jsStartsWith (k ++ ".(toNumber)") "pwd." = false)
    (h6 : jsStartsWith (k ++ ".(toNumber)") "enc." = false)
    (h7 : jsReplaceFirst (k ++ ".(toNumber)") ".(toNumber)" "" = k) :
    (replaceVariables dec env store logged
        ("#\x7b" ++ (k ++ ".(toNumber)") ++ "\x7d")).1 =
      match lookupStore store k with
      | none => jsNumberRender k
      | some v => if v == "" then "" else jsNumberRender v := by
  have hdata : (k ++ ".(toNumber)").data = k.data ++ ".(toNumber)".data :=
    String.data_append k ".(toNumber)"
  have hvne : (k ++ ".(toNumber)").data ≠ [] := by
    rw [hdata]
    intro h
    rcases List.append_eq_nil.mp h with ⟨-, h2b⟩
    exact absurd h2b (by decide)
  have hvnb : ∀ ch ∈ (k ++ ".(toNumber)").data, ch ≠ '\x7d' := by
    intro ch hch
    rw [hdata] at hch
    rcases List.mem_append.mp hch with h | h
    · exact h4 ch h
    · fin_cases h <;> decide
  rw [replaceVariables_single dec env store logged (k ++ ".(toNumber)") hvne hvnb]
  have hend : jsEndsWith (k ++ ".(toNumber)") ".(toNumber)" = true :=
    jsEndsWith_append k ".(toNumber)"
  have hval := getValue_val_eq env store logged k h1 h2 h3
  have hb : (k == "") = false := beq_eq_false_iff_ne.mpr h1
  unfold rvCallback
  rw [h5, h6]
  simp only [Bool.false_eq_true, if_false, hend, if_true, h7]
  cases hls : lookupStore store k with
  | none =>
    rw [hls] at hval
    simp [hval, hb]
  | some v =>
    rw [hls] at hval
    cases hv : (v == "") <;> simp [hval, hv]

/-- Claim C4, witness for the amended theorem: present nonblank value and
present blank value. -/
theorem c4_witness :
    (replaceVariables decFail envNone [("score", "41")] [] "#\x7bscore.(toNumber)\x7d").1
      = "41" ∧
    (replaceVariables decFail envNone [("score", "")] [] "#\x7bscore.(toNumber)\x7d").1
      = "" := by
  have hs : "#\x7b" ++ ("score" ++ ".(toNumber)") ++ "\x7d" = "#\x7bscore.(toNumber)\x7d" := rfl
  constructor
  · have h := c4_toNumber_semantics decFail envNone [("score", "41")] [] "score"
      (by decide) (by decide) (by decide) (by decide) (by decide) (by decide) (by decide)
    rw [hs] at h
    exact h.trans (by decide)
  · have h := c4_toNumber_semantics decFail envNone [("score", "")] [] "score"
      (by decide) (by decide) (by decide) (by decide) (by decide) (by decide) (by decide)
    rw [hs] at h
    exact h.trans (by decide)

/-- Claim C10: `replaceVariables` contains decryption failures.  For every
decryption capability that throws on ciphertext `c` (any error message
`e`), the whole call still returns a normal result triple: the `pwd.`/`enc.`
placeholder is replaced by the literal expression text inside the braces,
one warning is recorded, and the logged-key state is untouched — the error
never propagates (the embedding is a total function whose only fallible
call, `decrypt`, sits inside the modelled try/catch). -/
theorem c10_decrypt_failure_contained (dec : String → Except String String)
    (env : String → Option String) (store : Store) (logged : List String)
    (c e : String) (h2 : ∀ ch ∈ c.data, ch ≠ '\x7d')
    (h3 : dec c = Except.error e) :
    replaceVariables dec env store logged ("#\x7b" ++ ("pwd." ++ c) ++ "\x7d") =
      ("pwd." ++ c, logged, [LogEvent.warnDecryptPwd e]) ∧
    replaceVariables dec env store logged ("#\x7b" ++ ("enc." ++ c) ++ "\x7d") =
      ("enc." ++ c, logged, [LogEvent.warnDecryptEnc e]) := by
  have hdp : ("pwd." ++ c).data = 'p' :: 'w' :: 'd' :: '.' :: c.data := rfl
  have hde : ("enc." ++ c).data = 'e' :: 'n' :: 'c' :: '.' :: c.data := rfl
  have hnbp : ∀ ch ∈ ("pwd." ++ c).data, ch ≠ '\x7d' := by
    intro ch hch
    rw [hdp] at hch
    simp only [List.mem_cons] at hch
    rcases hch with h | h | h | h | h
    · subst h; decide
    · subst h; decide
    · subst h; decide
    · subst h; decide
    · exact h2 ch h
  have hnbe : ∀ ch ∈ ("enc." ++ c).data, ch ≠ '\x7d' := by
    intro ch hch
    rw [hde] at hch
    simp only [List.mem_cons] at hch
    rcases hch with h | h | h | h | h
    · subst h; decide
    · subst h; decide
    · subst h; decide
    · subst h; decide
    · exact h2 ch h
  have hdropP : jsDrop ("pwd." ++ c) 4 = c := by
    unfold jsDrop
    rw [hdp]
    exact strMk_data c
  have hdropE : jsDrop ("enc." ++ c) 4 = c := by
    unfold jsDrop
    rw [hde]
    exact strMk_data c
  constructor
  · rw [replaceVariables_single dec env store logged ("pwd." ++ c)
      (by rw [hdp]; exact List.cons_ne_nil _ _) hnbp]
    have hst : jsStartsWith ("pwd." ++ c) "pwd." = true := by
      unfold jsStartsWith
      rw [String.data_append]
      exact chStarts_self_append "pwd.".data c.data
    simp [rvCallback, hst, hdropP, h3]
  · rw [replaceVariables_single dec env store logged ("enc." ++ c)
      (by rw [hde]; exact List.cons_ne_nil _ _) hnbe]
    have hst1 : jsStartsWith ("enc." ++ c) "pwd." = false := by
      unfold jsStartsWith
      rw [String.data_append]
      rfl
    have hst2 : jsStartsWith ("enc." ++ c) "enc." = true := by
      unfold jsStartsWith
      rw [String.data_append]
      exact chStarts_self_append "enc.".data c.data
    simp [rvCallback, hst1, hst2, hdropE, h3]

/-- Claim C10, witness: a concrete failing decryption for both placeholder
classes. -/
theorem c10_witness :
    replaceVariables decFail envNone [] [] "#\x7bpwd.deadbeef\x7d" =
      ("pwd.deadbeef", [], [LogEvent.warnDecryptPwd "bad ciphertext"]) ∧
    replaceVariables decFail envNone [] [] "#\x7benc.deadbeef\x7d" =
      ("enc.deadbeef", [], [LogEvent.warnDecryptEnc "bad ciphertext"]) := by
  have h := c10_decrypt_failure_contained decFail envNone [] [] "deadbeef"
    "bad ciphertext" (by decide) rfl
  have hs1 : "#\x7b" ++ ("pwd." ++ "deadbeef") ++ "\x7d" = "#\x7bpwd.deadbeef\x7d" := rfl
  have hs2 : "#\x7b" ++ ("enc." ++ "deadbeef") ++ "\x7d" = "#\x7benc.deadbeef\x7d" := rfl
  have hv1 : "pwd." ++ "deadbeef" = "pwd.deadbeef" := rfl
  have hv2 : "enc." ++ "deadbeef" = "enc.deadbeef" := rfl
  rcases h with ⟨ha, hb⟩
  rw [hs1, hv1] at ha
  rw [hs2, hv2] at hb
  exact ⟨ha, hb⟩

/-- Claim C6: the loose option string round-trips with the locator value
intact — the masking pass shields `xpath=//div[@id=1]` from the
single-quote, bare-key, Python-literal and trailing-comma transforms, and
the restore pass re-inserts it as a quoted JSON string. -/
theorem c6_parseLooseJson_roundtrip :
    parseLooseJson "\x7bname: \"x\", locator: xpath=//div[@id=1], count: 3\x7d" =
      Except.ok (JsonVal.jobj
        [("name", JsonVal.jstr "x"),
         ("locator", JsonVal.jstr "xpath=//div[@id=1]"),
         ("count", JsonVal.jnum 3)]) := rfl

/-- If some poll inside the timeout window matches, the loop reports
`found` (it stops at the first matching poll, which is no later). -/
theorem pollLoop_found (texts : Nat → String) (expectedText : String)
    (t : Nat) (pm ic : Bool) :
    ∀ (n fuel i : Nat) (last : String) (k : Nat), k - i = n → i ≤ k →
      k - i < fuel → 300 * k < t →
      textMatches expectedText (jsTrim (texts k)) pm ic = true →
      (pollLoop texts expectedText t pm ic fuel i last).1 = true := by
  intro n
  induction n with
  | zero =>
    intro fuel i last k h0 hik hfuel ht hm
    have hik2 : k = i := by omega
    subst hik2
    cases fuel with
    | zero => omega
    | succ m =>
      unfold pollLoop
      rw [if_pos ht]
      simp [hm]
  | succ nn ih =>
    intro fuel i last k h0 hik hfuel ht hm
    have hit : 300 * i < t := by omega
    cases fuel with
    | zero => omega
    | succ m =>
      unfold pollLoop
      rw [if_pos hit]
      cases hmi : textMatches expectedText (jsTrim (texts i)) pm ic with
      | true => simp [hmi]
      | false =>
        have hrec := ih m (i + 1) (jsTrim (texts i)) k (by omega) (by omega)
          (by omega) ht hm
        simp [hmi, hrec]

/-- If no poll inside the window matches, the loop returns `found = false`
and, when at least the starting poll runs, `lastActual` is the text read at
the final poll index `(t - 1) / 300`. -/
theorem pollLoop_nomatch (texts : Nat → String) (expectedText : String)
    (t : Nat) (pm ic : Bool)
    (hall : ∀ j, 300 * j < t →
      textMatches expectedText (jsTrim (texts j)) pm ic = false) :
    ∀ (fuel i : Nat) (last : String), (t - 1) / 300 + 1 ≤ fuel + i →
      pollLoop texts expectedText t pm ic fuel i last =
        (false, if 300 * i < t then jsTrim (texts ((t - 1) / 300)) else last) := by
  intro fuel
  induction fuel with
  | zero =>
    intro i last hfi
    have hit : ¬ 300 * i < t := by omega
    unfold pollLoop
    rw [if_neg hit]
  | succ m ih =>
    intro i last hfi
    by_cases hit : 300 * i < t
    · unfold pollLoop
      rw [if_pos hit]
      simp only [hall i hit, Bool.false_eq_true, if_false]
      rw [ih (i + 1) (jsTrim (texts i)) (by omega)]
      rw [if_pos hit]
      by_cases hnext : 300 * (i + 1) < t
      · rw [if_pos hnext]
      · rw [if_neg hnext]
        have hieq : i = (t - 1) / 300 := by omega
        rw [hieq]
    · unfold pollLoop
      rw [if_neg hit, if_neg hit]

/-- Any list equal to an explicitly factored `pre ++ (pat ++ r)` layout is
found to include `pat`. -/
theorem chIncl_factor (l pre pat r : List Char) (h : l = pre ++ (pat ++ r)) :
    chIncl l pat = true := by
  subst h
  have := chIncl_parts pre pat r
  simpa [List.append_assoc] using this

/-- The timeout message contains the rendered timeout value. -/
theorem waitTimeoutMsg_incl_timeout (e f last : String) (t : Nat) :
    jsIncludes (waitTimeoutMsg e f t last) (toString t) = true := by
  unfold jsIncludes
  apply chIncl_factor _
    (("❌ Text \"" ++ e ++ "\" did not appear at location \"" ++ f ++
      "\" within ").data) _
    (("ms. Last actual: \"" ++ last ++ "\"").data)
  simp [waitTimeoutMsg, String.data_append, List.append_assoc]

/-- The timeout message contains the last observed text. -/
theorem waitTimeoutMsg_incl_last (e f last : String) (t : Nat) :
    jsIncludes (waitTimeoutMsg e f t last) last = true := by
  unfold jsIncludes
  apply chIncl_factor _
    (("❌ Text \"" ++ e ++ "\" did not appear at location \"" ++ f ++
      "\" within " ++ toString t ++ "ms. Last actual: \"").data) _
    ("\"".data)
  simp [waitTimeoutMsg, String.data_append, List.append_assoc]

/-- Claim C9: under the idealised 300ms polling schedule, if the expected
text (with the chosen partial/exact option) is observed at some poll before
the configured timeout elapses, `waitForTextAtLocation` returns normally;
if no poll inside the window observes it, the call throws an error whose
message contains the configured timeout value and the last observed text. -/
theorem c9_wait_for_text (texts : Nat → String) (field expectedText : String)
    (actionTimeout : Nat) (pm ic : Bool) :
    ((∃ k, 300 * k < actionTimeout ∧
        textMatches expectedText (jsTrim (texts k)) pm ic = true) →
      doWaitForTextAtLocation texts field expectedText actionTimeout pm ic =
        Except.ok ()) ∧
    ((∀ k, 300 * k < actionTimeout →
        textMatches expectedText (jsTrim (texts k)) pm ic = false) →
      doWaitForTextAtLocation texts field expectedText actionTimeout pm ic =
        Except.error (waitTimeoutMsg expectedText field actionTimeout
          (lastObserved texts actionTimeout)) ∧
      jsIncludes (waitTimeoutMsg expectedText field actionTimeout
        (lastObserved texts actionTimeout)) (toString actionTimeout) = true ∧
      jsIncludes (waitTimeoutMsg expectedText field actionTimeout
        (lastObserved texts actionTimeout)) (lastObserved texts actionTimeout)
        = true) := by
  constructor
  · rintro ⟨k, hk, hm⟩
    have hf : (pollLoop texts expectedText actionTimeout pm ic
        (actionTimeout + 1) 0 "").1 = true :=
      pollLoop_found texts expectedText actionTimeout pm ic k
        (actionTimeout + 1) 0 "" k rfl (Nat.zero_le k) (by omega) hk hm
    simp [doWaitForTextAtLocation, hf]
  · intro hall
    have hp := pollLoop_nomatch texts expectedText actionTimeout pm ic hall
      (actionTimeout + 1) 0 "" (by omega)
    have hlast : (if 300 * 0 < actionTimeout
        then jsTrim (texts ((actionTimeout - 1) / 300)) else "")
        = lastObserved texts actionTimeout := by
      unfold lastObserved
      by_cases h0 : actionTimeout = 0
      · subst h0; rfl
      · rw [if_pos (by omega), if_neg h0]
    rw [hlast] at hp
    refine ⟨?_, waitTimeoutMsg_incl_timeout expectedText field
      (lastObserved texts actionTimeout) actionTimeout,
      waitTimeoutMsg_incl_last expectedText field
      (lastObserved texts actionTimeout) actionTimeout⟩
    simp [doWaitForTextAtLocation, hp]

/-- Claim C9, witness: with a 5000ms configured timeout, text present from
the first poll succeeds; text never present throws the message with the
timeout value and last observation. -/
theorem c9_witness :
    doWaitForTextAtLocation (fun _ => "Welcome back") "h1" "Welcome" 5000 true true
      = Except.ok () ∧
    doWaitForTextAtLocation (fun _ => "nope") "h1" "Welcome" 5000 true true =
      Except.error (waitTimeoutMsg "Welcome" "h1" 5000
        (lastObserved (fun _ => "nope") 5000)) := by
  constructor
  · exact (c9_wait_for_text (fun _ => "Welcome back") "h1" "Welcome" 5000 true true).1
      ⟨0, by omega, by decide⟩
  · exact ((c9_wait_for_text (fun _ => "nope") "h1" "Welcome" 5000 true true).2
      (fun k _ => by decide)).1

end PlayQ
